import Mathlib

/-!
Verification of the audio-processing batch pipeline (`audio_processor.py`).

The pipeline loads an audio file, downmixes to mono, normalizes samples to
rationals in roughly [-1, 1], optionally resamples, writes the result back
out, and renders a 100-frame waveform animation.

The embedding models the external libraries (pydub decoding, librosa
resampling) as parameters of an environment record `Env`; the repository's
own control flow and arithmetic are translated directly from the source.
Sample amplitudes are modelled as rationals (every int16 value divided by
2^15 is an exact dyadic rational, so no precision is lost), and Python
slices/numpy reductions are modelled by total list functions returning
`Except` where the library call can raise.
-/

namespace AudioProcessing

/-- A decoded pydub `AudioSegment`: channel count, frame rate, the raw
integer samples returned by `get_array_of_samples`, and the container
format tag. -/
structure AudioSegment where
  channels : Nat
  frame_rate : Nat
  raw : List Int
  format : String
deriving DecidableEq

/-- The two error conditions `load_audio` can raise:
`FileNotFoundError` and `ValueError` (decode failure). -/
inductive LoadError where
  | fileNotFound (msg : String)
  | decodeError (msg : String)
deriving DecidableEq

/-- The external world as seen by the pipeline: the filesystem existence
check (`os.path.exists`), the pydub decoder (`AudioSegment.from_file`,
which either returns a segment or raises with a message), the pydub
stereo-to-mono downmix (`set_channels(1)`), and the librosa resampler. -/
structure Env where
  pathExists : String → Bool
  decode : String → Except String AudioSegment
  setChannels1 : AudioSegment → AudioSegment
  resample : List ℚ → Nat → Nat → List ℚ

/-- `load_audio`: raises `FileNotFoundError` when the path does not exist,
otherwise decodes; any decode failure is wrapped as a `ValueError`.  On
success the (possibly downmixed) segment's samples are scaled by `1 / 2^15`
and returned with the segment's frame rate and the segment itself. -/
def load_audio (env : Env) (file_path : String) :
    Except LoadError (List ℚ × Nat × AudioSegment) :=
  if env.pathExists file_path then
    match env.decode file_path with
    | Except.error e =>
        Except.error (LoadError.decodeError ("Failed to load audio file: " ++ e))
    | Except.ok audio0 =>
        let audio := if audio0.channels = 2 then env.setChannels1 audio0 else audio0
        let samples := audio.raw.map (fun s : Int => (s : ℚ) / 2 ^ 15)
        Except.ok (samples, audio.frame_rate, audio)
  else
    Except.error (LoadError.fileNotFound ("Audio file not found: " ++ file_path))

/-- `resample_audio`: delegates rate conversion to librosa when the rates
differ, and returns the input buffer untouched when they agree. -/
def resample_audio (env : Env) (samples : List ℚ) (orig_sr target_sr : Nat) :
    List ℚ × Nat :=
  if orig_sr ≠ target_sr then (env.resample samples orig_sr target_sr, target_sr)
  else (samples, orig_sr)

/-- Python `int()` / C-cast truncation of a rational toward zero. -/
def truncToInt (q : ℚ) : Int :=
  if 0 ≤ q then ⌊q⌋ else ⌈q⌉

/-- numpy `astype(np.int16)` value semantics: reduction modulo `2^16` into
the signed range `[-2^15, 2^15)`. -/
def wrapInt16 (z : Int) : Int :=
  (z + 2 ^ 15) % 2 ^ 16 - 2 ^ 15

/-- `save_audio`: de-normalizes samples back to int16 by multiplying by
`2^15` and casting, then builds a mono 16-bit segment at the given rate in
the original container format (the exported file's content). -/
def save_audio (samples : List ℚ) (sample_rate : Nat)
    (original_audio : AudioSegment) : AudioSegment :=
  { channels := 1
    frame_rate := sample_rate
    raw := samples.map (fun s => wrapInt16 (truncToInt (s * 2 ^ 15)))
    format := original_audio.format }

/-- Python slice `l[a:b]` for nonnegative bounds: both bounds clamp to the
list length and an empty slice results when `a ≥ b`. -/
def pySlice (l : List ℚ) (a b : Nat) : List ℚ :=
  (l.take b).drop a

/-- numpy `linspace lo hi n`: `n` evenly spaced points from `lo` to `hi`
inclusive (`[lo]` when `n = 1`, `[]` when `n = 0`). -/
def linspace (lo hi : ℚ) (n : Nat) : List ℚ :=
  if n ≤ 1 then List.replicate n lo
  else (List.range n).map (fun i => lo + (hi - lo) * i / (n - 1))

/-- numpy `min` of an array: raises on an empty array. -/
def npMin : List ℚ → Except String ℚ
  | [] => Except.error "zero-size array to reduction operation minimum which has no identity"
  | x :: xs => Except.ok (xs.foldl min x)

/-- numpy `max` of an array: raises on an empty array. -/
def npMax : List ℚ → Except String ℚ
  | [] => Except.error "zero-size array to reduction operation maximum which has no identity"
  | x :: xs => Except.ok (xs.foldl max x)

/-- `samples_per_frame = int(sample_rate * (duration / 100))`. -/
def samples_per_frame (sample_rate : Nat) (duration : ℚ) : Nat :=
  (truncToInt ((sample_rate : ℚ) * (duration / 100))).toNat

/-- The per-frame `update` closure of `generate_waveform_gif`: slices the
time axis and the sample buffer from `frame * spf` to
`min ((frame + 1) * spf) len`. -/
def update (time samples : List ℚ) (spf frame : Nat) : List ℚ × List ℚ :=
  let start_idx := frame * spf
  let end_idx := min ((frame + 1) * spf) samples.length
  (pySlice time start_idx end_idx, pySlice samples start_idx end_idx)

/-- The observable output of `generate_waveform_gif`: axis limits, the
rendered per-frame data slices, and the output frame rate. -/
structure WaveformGif where
  xlim : ℚ × ℚ
  ylim : ℚ × ℚ
  frames : List (List ℚ × List ℚ)
  fps : ℚ
deriving DecidableEq

/-- `generate_waveform_gif`: computes the amplitude axis limits as 110% of
the buffer's min/max (raising on an empty buffer, as numpy reductions do),
then renders 100 frames, each a forward-advancing slice of the waveform. -/
def generate_waveform_gif (samples : List ℚ) (sample_rate : Nat)
    (duration : ℚ) : Except String WaveformGif :=
  let time := linspace 0 ((samples.length : ℚ) / (sample_rate : ℚ)) samples.length
  match npMin samples, npMax samples with
  | Except.ok lo, Except.ok hi =>
      let frames : Nat := 100
      let frame_duration := duration / (frames : ℚ)
      let spf := samples_per_frame sample_rate duration
      Except.ok
        { xlim := (0, duration)
          ylim := (lo * (11 / 10), hi * (11 / 10))
          frames := (List.range frames).map (update time samples spf)
          fps := 1 / frame_duration }
  | Except.error e, _ => Except.error e
  | _, Except.error e => Except.error e

/-- Index of the last occurrence of a character (Python `str.rfind`),
`none` when absent. -/
def rfind (c : Char) : List Char → Option Nat
  | [] => none
  | x :: xs =>
    match rfind c xs with
    | some i => some (i + 1)
    | none => if x = c then some 0 else none

/-- `os.path.basename`: everything after the last `/`. -/
def basename (p : List Char) : List Char :=
  match rfind '/' p with
  | some i => p.drop (i + 1)
  | none => p

/-- `os.path.splitext` (posix): splits at the last dot when it lies after
the last slash and some character strictly between them is not a dot
(so leading dots of the basename never start an extension). -/
def splitext (p : List Char) : List Char × List Char :=
  let sepIndex : Int := match rfind '/' p with | some i => (i : Int) | none => -1
  let dotIndex : Int := match rfind '.' p with | some i => (i : Int) | none => -1
  if sepIndex < dotIndex then
    if ((p.take dotIndex.toNat).drop (sepIndex + 1).toNat).any (fun c => c != '.') then
      (p.take dotIndex.toNat, p.drop dotIndex.toNat)
    else (p, [])
  else (p, [])

/-- `get_output_filenames`: prefixes the input's stem with `v2_` and places
both outputs under the fixed `sample_data/` directory, the audio output
keeping the input's extension and the GIF output using `.gif`. -/
def get_output_filenames (input_path : String) : String × String :=
  let filename := String.mk (splitext (basename input_path.toList)).1
  let audio_output :=
    "sample_data/v2_" ++ filename ++ String.mk (splitext input_path.toList).2
  let gif_output := "sample_data/v2_" ++ filename ++ ".gif"
  (audio_output, gif_output)

/-- `process_audio`: `load_audio` then `resample_audio`. -/
def process_audio (env : Env) (file_path : String) (target_sr : Nat) :
    Except LoadError (List ℚ × Nat × AudioSegment) := do
  let (samples, sample_rate, original_audio) ← load_audio env file_path
  let (samples, sample_rate) := resample_audio env samples sample_rate target_sr
  return (samples, sample_rate, original_audio)

/-! ### Concrete environment used by the witnesses -/

/-- A concrete environment: one existing path whose decode yields a stereo
segment, a downmix producing a mono segment at the same frame rate, and a
resampler returning a buffer of the librosa output length. -/
def testEnv : Env where
  pathExists := fun p => p == "present.mov"
  decode := fun _ => Except.ok ⟨2, 44100, [100, -100, 50, -50], "mov"⟩
  setChannels1 := fun a => { a with channels := 1, raw := [75, 0] }
  resample := fun s o t => List.replicate ((s.length * t + o - 1) / o) 0

/-! ### Claim theorems -/

/-- C1: for every filesystem path that does not exist, `load_audio` raises
the missing-file condition (`FileNotFoundError`); the decode function is
universally quantified, so no decode attempt can influence the result and
the decode-error condition is never produced. -/
theorem load_audio_missing_file (env : Env) (file_path : String)
    (d : String → Except String AudioSegment)
    (h : env.pathExists file_path = false) :
    load_audio { env with decode := d } file_path =
      Except.error (LoadError.fileNotFound ("Audio file not found: " ++ file_path)) := by
  simp [load_audio, h]

/-- Witness for C1 at the concrete nonexistent path `"absent.mov"`. -/
theorem load_audio_missing_file_witness :
    testEnv.pathExists "absent.mov" = false ∧
    load_audio { testEnv with decode := fun _ => Except.error "boom" } "absent.mov" =
      Except.error (LoadError.fileNotFound ("Audio file not found: " ++ "absent.mov")) :=
  ⟨by decide, load_audio_missing_file testEnv "absent.mov"
    (fun _ => Except.error "boom") (by decide)⟩

/-- C2: resampling with the target rate equal to the source rate returns
the buffer itself (identical in content and length), paired with the
unchanged rate. -/
theorem resample_audio_same_rate (env : Env) (samples : List ℚ) (r : Nat) :
    resample_audio env samples r r = (samples, r) := by
  simp [resample_audio]

/-- C7: for every existing path whose decode step throws, `load_audio`
fails with the decode-error condition (`ValueError`) wrapping the
underlying message with context. -/
theorem load_audio_decode_failure (env : Env) (file_path msg : String)
    (h1 : env.pathExists file_path = true)
    (h2 : env.decode file_path = Except.error msg) :
    load_audio env file_path =
      Except.error (LoadError.decodeError ("Failed to load audio file: " ++ msg)) := by
  simp [load_audio, h1, h2]

/-- Witness for C7 at the concrete existing path `"present.mov"` with a
decoder that throws `"boom"`. -/
theorem load_audio_decode_failure_witness :
    ({ testEnv with decode := fun _ => Except.error "boom" } : Env).pathExists
        "present.mov" = true ∧
    ({ testEnv with decode := fun _ => Except.error "boom" } : Env).decode
        "present.mov" = Except.error "boom" ∧
    load_audio { testEnv with decode := fun _ => Except.error "boom" } "present.mov" =
      Except.error (LoadError.decodeError ("Failed to load audio file: " ++ "boom")) :=
  ⟨by decide, rfl,
    load_audio_decode_failure { testEnv with decode := fun _ => Except.error "boom" }
      "present.mov" "boom" (by decide) rfl⟩

/-- C8: `save_audio` de-normalizes by `int16(sample * 2^15)` with
truncation toward zero; a sample of exactly `+1.0` yields `32768`, which
wraps modulo `2^16` to `-32768`, so full-scale positive amplitude is
written as full-scale negative. -/
theorem save_audio_full_scale_wraps (samples : List ℚ) (sample_rate : Nat)
    (original_audio : AudioSegment) :
    (save_audio samples sample_rate original_audio).raw =
      samples.map (fun s => wrapInt16 (truncToInt (s * 2 ^ 15))) ∧
    truncToInt ((1 : ℚ) * 2 ^ 15) = 32768 ∧
    (save_audio [(1 : ℚ)] sample_rate original_audio).raw = [-32768] :=
  ⟨rfl, by norm_num [truncToInt],
    by norm_num [save_audio, wrapInt16, truncToInt]⟩

/-- C9: on an empty sample buffer, `generate_waveform_gif` fails (the
amplitude-axis limits take the min of an empty array) and produces no
frames: a non-empty buffer is an implicit precondition. -/
theorem generate_waveform_gif_empty_fails (sample_rate : Nat) (duration : ℚ) :
    generate_waveform_gif [] sample_rate duration =
      Except.error
        "zero-size array to reduction operation minimum which has no identity" :=
  rfl

/-- C6: the audio output path is
`sample_data/v2_<input_stem><input_extension>` and the GIF output path is
`sample_data/v2_<input_stem>.gif`; at `"sample_data/mmmm.mov"` these are
`"sample_data/v2_mmmm.mov"` and `"sample_data/v2_mmmm.gif"`. -/
theorem get_output_filenames_derivation (input_path : String) :
    get_output_filenames input_path =
      ("sample_data/v2_" ++ String.mk (splitext (basename input_path.toList)).1 ++
          String.mk (splitext input_path.toList).2,
        "sample_data/v2_" ++ String.mk (splitext (basename input_path.toList)).1 ++
          ".gif") ∧
    get_output_filenames "sample_data/mmmm.mov" =
      ("sample_data/v2_mmmm.mov", "sample_data/v2_mmmm.gif") :=
  ⟨rfl, by decide⟩

/-- C3: for distinct positive rates, `resample_audio` returns the target
rate together with a buffer whose length (equal, per librosa's contract,
to the ceiling of the exact scaled length) is within one sample of
`len(samples) * target_sr / orig_sr`. -/
theorem resample_audio_rate_change (env : Env) (samples : List ℚ)
    (orig_sr target_sr : Nat)
    (ho : 0 < orig_sr) (ht : 0 < target_sr) (hne : orig_sr ≠ target_sr)
    (hlen : ((env.resample samples orig_sr target_sr).length : Int) =
      ⌈(samples.length : ℚ) * (target_sr : ℚ) / (orig_sr : ℚ)⌉) :
    (resample_audio env samples orig_sr target_sr).2 = target_sr ∧
    |((resample_audio env samples orig_sr target_sr).1.length : ℚ) -
        (samples.length : ℚ) * (target_sr : ℚ) / (orig_sr : ℚ)| ≤ 1 := by
  have hr : resample_audio env samples orig_sr target_sr =
      (env.resample samples orig_sr target_sr, target_sr) := by
    simp [resample_audio, hne]
  refine ⟨by rw [hr], ?_⟩
  rw [hr]
  set x : ℚ := (samples.length : ℚ) * (target_sr : ℚ) / (orig_sr : ℚ) with hx
  have hcast : (((env.resample samples orig_sr target_sr).length : Int) : ℚ) =
      ((⌈x⌉ : Int) : ℚ) := by exact_mod_cast congrArg (fun z : Int => (z : ℚ)) hlen
  have h1 : x ≤ ((⌈x⌉ : Int) : ℚ) := Int.le_ceil x
  have h2 : ((⌈x⌉ : Int) : ℚ) < x + 1 := Int.ceil_lt_add_one x
  rw [abs_le]
  constructor
  · have := h1
    push_cast at hcast ⊢
    rw [hcast]
    linarith
  · push_cast at hcast ⊢
    rw [hcast]
    linarith

/-- Witness for C3: three samples resampled from rate 2 to rate 1, where
the environment's resampler honours the librosa output-length contract. -/
theorem resample_audio_rate_change_witness :
    0 < 2 ∧ 0 < 1 ∧ (2 : Nat) ≠ 1 ∧
    ((testEnv.resample [0, 0, 0] 2 1).length : Int) =
      ⌈(([0, 0, 0] : List ℚ).length : ℚ) * ((1 : Nat) : ℚ) / ((2 : Nat) : ℚ)⌉ ∧
    ((resample_audio testEnv [0, 0, 0] 2 1).2 = 1 ∧
      |((resample_audio testEnv [0, 0, 0] 2 1).1.length : ℚ) -
          (([0, 0, 0] : List ℚ).length : ℚ) * ((1 : Nat) : ℚ) / ((2 : Nat) : ℚ)| ≤ 1) := by
  have hlen : ((testEnv.resample [0, 0, 0] 2 1).length : Int) =
      ⌈(([0, 0, 0] : List ℚ).length : ℚ) * ((1 : Nat) : ℚ) / ((2 : Nat) : ℚ)⌉ := by
    rw [show ((testEnv.resample [0, 0, 0] 2 1).length : Int) = 2 from rfl]
    rw [show (([0, 0, 0] : List ℚ).length : ℚ) * ((1 : Nat) : ℚ) / ((2 : Nat) : ℚ) =
      3 / 2 by norm_num]
    symm
    rw [Int.ceil_eq_iff]
    norm_num
  exact ⟨by decide, by decide, by decide, hlen,
    resample_audio_rate_change testEnv [0, 0, 0] 2 1
      (by decide) (by decide) (by decide) hlen⟩

/-- Any raw integer sample within the signed 16-bit span scales under
division by `2^15` into `[-1, 1]`. -/
theorem scaled_sample_mem_unit (v : Int) (h1 : -(2 ^ 15) ≤ v) (h2 : v ≤ 2 ^ 15) :
    -1 ≤ (v : ℚ) / 2 ^ 15 ∧ (v : ℚ) / 2 ^ 15 ≤ 1 := by
  have hv1 : (-(2 ^ 15) : ℚ) ≤ (v : ℚ) := by exact_mod_cast h1
  have hv2 : (v : ℚ) ≤ 2 ^ 15 := by exact_mod_cast h2
  constructor
  · rw [le_div_iff₀ (by norm_num : (0 : ℚ) < 2 ^ 15)]
    linarith
  · rw [div_le_iff₀ (by norm_num : (0 : ℚ) < 2 ^ 15)]
    linarith

/-- C5: whenever decoding succeeds on a mono or stereo segment and the
downmix behaves as pydub's `set_channels(1)` (mono output, preserved frame
rate), `load_audio` returns a single mono sample sequence obtained by
scaling the raw integer samples by `1 / 2^15` (hence lying in `[-1, 1]`
when the raw samples span the signed 16-bit range), paired with the source
frame rate. -/
theorem load_audio_mono_normalized (env : Env) (file_path : String)
    (audio0 : AudioSegment)
    (hex : env.pathExists file_path = true)
    (hdec : env.decode file_path = Except.ok audio0)
    (hch : audio0.channels = 1 ∨ audio0.channels = 2)
    (hmix1 : (env.setChannels1 audio0).channels = 1)
    (hmix2 : (env.setChannels1 audio0).frame_rate = audio0.frame_rate) :
    ∃ a : AudioSegment,
      load_audio env file_path =
        Except.ok (a.raw.map (fun s : Int => (s : ℚ) / 2 ^ 15), audio0.frame_rate, a) ∧
      a.channels = 1 ∧
      ((∀ v ∈ a.raw, -(2 ^ 15) ≤ v ∧ v ≤ 2 ^ 15) →
        ∀ q ∈ a.raw.map (fun s : Int => (s : ℚ) / 2 ^ 15), -1 ≤ q ∧ q ≤ 1) := by
  have hrange : ∀ a : AudioSegment,
      (∀ v ∈ a.raw, -(2 ^ 15) ≤ v ∧ v ≤ 2 ^ 15) →
      ∀ q ∈ a.raw.map (fun s : Int => (s : ℚ) / 2 ^ 15), -1 ≤ q ∧ q ≤ 1 := by
    intro a hb q hq
    obtain ⟨v, hv, hfv⟩ := List.mem_map.mp hq
    subst hfv
    exact scaled_sample_mem_unit v (hb v hv).1 (hb v hv).2
  rcases hch with h1 | h2
  · refine ⟨audio0, ?_, h1, hrange audio0⟩
    simp [load_audio, hex, hdec, h1]
  · refine ⟨env.setChannels1 audio0, ?_, hmix1, hrange _⟩
    simp [load_audio, hex, hdec, h2, hmix2]

/-- Witness for C5: the stereo segment decoded by `testEnv` at
`"present.mov"` loads as a mono scaled buffer at the source rate. -/
theorem load_audio_mono_normalized_witness :
    testEnv.pathExists "present.mov" = true ∧
    testEnv.decode "present.mov" =
      Except.ok ⟨2, 44100, [100, -100, 50, -50], "mov"⟩ ∧
    ((⟨2, 44100, [100, -100, 50, -50], "mov"⟩ : AudioSegment).channels = 1 ∨
      (⟨2, 44100, [100, -100, 50, -50], "mov"⟩ : AudioSegment).channels = 2) ∧
    (testEnv.setChannels1 ⟨2, 44100, [100, -100, 50, -50], "mov"⟩).channels = 1 ∧
    (testEnv.setChannels1 ⟨2, 44100, [100, -100, 50, -50], "mov"⟩).frame_rate =
      (⟨2, 44100, [100, -100, 50, -50], "mov"⟩ : AudioSegment).frame_rate ∧
    (∃ a : AudioSegment,
      load_audio testEnv "present.mov" =
        Except.ok (a.raw.map (fun s : Int => (s : ℚ) / 2 ^ 15),
          (⟨2, 44100, [100, -100, 50, -50], "mov"⟩ : AudioSegment).frame_rate, a) ∧
      a.channels = 1 ∧
      ((∀ v ∈ a.raw, -(2 ^ 15) ≤ v ∧ v ≤ 2 ^ 15) →
        ∀ q ∈ a.raw.map (fun s : Int => (s : ℚ) / 2 ^ 15), -1 ≤ q ∧ q ≤ 1)) :=
  ⟨by decide, rfl, by decide, by decide, by decide,
    load_audio_mono_normalized testEnv "present.mov"
      ⟨2, 44100, [100, -100, 50, -50], "mov"⟩
      (by decide) rfl (by decide) (by decide) (by decide)⟩

/-- A Python slice never exceeds the length of the sliced list. -/
theorem pySlice_length_le (l : List ℚ) (a b : Nat) :
    (pySlice l a b).length ≤ l.length := by
  simp only [pySlice, List.length_drop, List.length_take]
  omega

/-- A Python slice starting at or beyond the end of the list is empty. -/
theorem pySlice_eq_nil (l : List ℚ) (a b : Nat) (h : l.length ≤ a) :
    pySlice l a b = [] := by
  apply List.drop_eq_nil_of_le
  simp only [List.length_take]
  omega

/-- C4 (amended: a non-empty buffer is required, see the counterexample at
the empty buffer): on any non-empty buffer, `generate_waveform_gif`
succeeds and renders exactly 100 frames whatever the audio duration; every
frame's sample slice stays within the buffer (end index clamped to the
buffer length), and every trailing frame whose start index lies at or
beyond the buffer end carries an empty slice rather than an error. -/
theorem generate_waveform_gif_hundred_frames (samples : List ℚ)
    (sample_rate : Nat) (h : samples ≠ []) :
    ∃ g : WaveformGif,
      generate_waveform_gif samples sample_rate 5 = Except.ok g ∧
      g.frames.length = 100 ∧
      (∀ p ∈ g.frames, p.2.length ≤ samples.length) ∧
      (∀ (f : Nat) (hf : f < g.frames.length),
        samples.length ≤ f * samples_per_frame sample_rate 5 →
        (g.frames.get ⟨f, hf⟩).2 = []) := by
  obtain ⟨x, xs, rfl⟩ := List.exists_cons_of_ne_nil h
  refine ⟨_, rfl, ?_, ?_, ?_⟩
  · simp [generate_waveform_gif]
  · intro p hp
    simp only [generate_waveform_gif, List.mem_map] at hp
    obtain ⟨f, _, hfp⟩ := hp
    rw [← hfp]
    simpa only [update] using
      pySlice_length_le _ (f * samples_per_frame sample_rate 5)
        (min ((f + 1) * samples_per_frame sample_rate 5) (x :: xs).length)
  · intro f hf hstart
    simp only [generate_waveform_gif, List.get_eq_getElem, List.getElem_map,
      List.getElem_range, update]
    exact pySlice_eq_nil _ _ _ hstart

/-- C4 counterexample: at the concrete empty input the visualizer raises
(numpy reduction over an empty array) and renders no frames at all, so
"every input" in the claim must exclude the empty buffer. -/
theorem generate_waveform_gif_empty_no_hundred_frames :
    generate_waveform_gif [] 22050 5 =
      Except.error
        "zero-size array to reduction operation minimum which has no identity" ∧
    ¬ ∃ g : WaveformGif, generate_waveform_gif [] 22050 5 = Except.ok g := by
  refine ⟨rfl, ?_⟩
  rintro ⟨g, hg⟩
  rw [show generate_waveform_gif [] 22050 5 =
    Except.error
      "zero-size array to reduction operation minimum which has no identity"
    from rfl] at hg
  exact Except.noConfusion hg

/-- Witness for C4 at the one-sample buffer `[1/2]` and rate 22050. -/
theorem generate_waveform_gif_hundred_frames_witness :
    ([(1 : ℚ) / 2] ≠ ([] : List ℚ)) ∧
    (∃ g : WaveformGif,
      generate_waveform_gif [(1 : ℚ) / 2] 22050 5 = Except.ok g ∧
      g.frames.length = 100 ∧
      (∀ p ∈ g.frames, p.2.length ≤ ([(1 : ℚ) / 2] : List ℚ).length) ∧
      (∀ (f : Nat) (hf : f < g.frames.length),
        ([(1 : ℚ) / 2] : List ℚ).length ≤ f * samples_per_frame 22050 5 →
        (g.frames.get ⟨f, hf⟩).2 = [])) :=
  ⟨by simp, generate_waveform_gif_hundred_frames [(1 : ℚ) / 2] 22050 (by simp)⟩

/-- `rfind` misses exactly the absent characters. -/
theorem rfind_eq_none_of_not_mem (c : Char) (l : List Char) (h : c ∉ l) :
    rfind c l = none := by
  induction l with
  | nil => rfl
  | cons x xs ih =>
    simp only [List.mem_cons, not_or] at h
    simp only [rfind, ih h.2]
    rw [if_neg fun hx => h.1 hx.symm]

/-- A hit in the right part of an append shifts by the left length. -/
theorem rfind_append_some (c : Char) (xs ys : List Char) (j : Nat)
    (h : rfind c ys = some j) : rfind c (xs ++ ys) = some (xs.length + j) := by
  induction xs with
  | nil => simpa using h
  | cons x xs ih =>
    rw [List.cons_append, rfind, ih]
    simp only [List.length_cons]
    congr 1
    omega

/-- With no hit on the right, `rfind` over an append searches the left. -/
theorem rfind_append_none (c : Char) (xs ys : List Char)
    (h : rfind c ys = none) : rfind c (xs ++ ys) = rfind c xs := by
  induction xs with
  | nil => simpa using h
  | cons x xs ih => rw [List.cons_append, rfind, ih, rfind]

/-- A found index is a valid index. -/
theorem rfind_lt_length (c : Char) (l : List Char) (i : Nat)
    (h : rfind c l = some i) : i < l.length := by
  induction l generalizing i with
  | nil => simp [rfind] at h
  | cons x xs ih =>
    simp only [rfind] at h
    cases hx : rfind c xs with
    | some j =>
      rw [hx] at h
      simp only [Option.some.injEq] at h
      have := ih j hx
      simp only [List.length_cons]
      omega
    | none =>
      rw [hx] at h
      by_cases hxc : x = c
      · rw [if_pos hxc] at h
        simp only [Option.some.injEq] at h
        simp only [List.length_cons]
        omega
      · rw [if_neg hxc] at h
        exact absurd h (by simp)

/-- `basename` of a slash-free name is the name itself. -/
theorem basename_no_slash (name : List Char) (h : '/' ∉ name) :
    basename name = name := by
  simp only [basename, rfind_eq_none_of_not_mem '/' name h]

/-- `basename` strips any directory part in front of a slash-free name. -/
theorem basename_append (d name : List Char) (h : '/' ∉ name) :
    basename (d ++ '/' :: name) = name := by
  have h1 : rfind '/' ('/' :: name) = some 0 := by
    simp [rfind, rfind_eq_none_of_not_mem '/' name h]
  have h2 : rfind '/' (d ++ '/' :: name) = some (d.length + 0) :=
    rfind_append_some '/' d ('/' :: name) 0 h1
  simp only [basename, h2]
  rw [show d ++ '/' :: name = (d ++ ['/']) ++ name by simp]
  rw [show d.length + 0 + 1 = (d ++ ['/']).length by simp]
  exact List.drop_left _ _

/-- The extension computed by `splitext` ignores any directory part in
front of a slash-free name. -/
theorem splitext_snd_append (d name : List Char) (h : '/' ∉ name) :
    (splitext (d ++ '/' :: name)).2 = (splitext name).2 := by
  have hsepN : rfind '/' name = none := rfind_eq_none_of_not_mem '/' name h
  have hsep1 : rfind '/' ('/' :: name) = some 0 := by simp [rfind, hsepN]
  have hsepP : rfind '/' (d ++ '/' :: name) = some (d.length + 0) :=
    rfind_append_some '/' d ('/' :: name) 0 hsep1
  have hsplit : d ++ '/' :: name = (d ++ ['/']) ++ name := by simp
  cases hdot : rfind '.' name with
  | none =>
    have hdot1 : rfind '.' ('/' :: name) = none := by simp [rfind, hdot]
    have hdotP : rfind '.' (d ++ '/' :: name) = rfind '.' d :=
      rfind_append_none '.' d ('/' :: name) hdot1
    cases hd : rfind '.' d with
    | none =>
      rw [hd] at hdotP
      simp only [splitext, hsepP, hdotP, hsepN, hdot]
      rw [if_neg (show ¬(((d.length + 0 : Nat) : Int) < -1) by omega),
        if_neg (show ¬((-1 : Int) < -1) by omega)]
    | some i =>
      rw [hd] at hdotP
      have hi : i < d.length := rfind_lt_length '.' d i hd
      simp only [splitext, hsepP, hdotP, hsepN, hdot]
      rw [if_neg (show ¬(((d.length + 0 : Nat) : Int) < ((i : Nat) : Int)) by omega),
        if_neg (show ¬((-1 : Int) < -1) by omega)]
  | some j =>
    have hdot1 : rfind '.' ('/' :: name) = some (j + 1) := by simp [rfind, hdot]
    have hdotP : rfind '.' (d ++ '/' :: name) = some (d.length + (j + 1)) :=
      rfind_append_some '.' d ('/' :: name) (j + 1) hdot1
    simp only [splitext, hsepP, hdotP, hsepN, hdot]
    rw [if_pos (show ((d.length + 0 : Nat) : Int) < ((d.length + (j + 1) : Nat) : Int) by omega),
      if_pos (show (-1 : Int) < ((j : Nat) : Int) by omega)]
    rw [show (((d.length + (j + 1) : Nat) : Int)).toNat = d.length + 1 + j by omega,
      show (((d.length + 0 : Nat) : Int) + 1).toNat = d.length + 1 by omega,
      show ((-1 : Int) + 1).toNat = 0 by omega,
      show (((j : Nat) : Int)).toNat = j by omega]
    have htake : (d ++ '/' :: name).take (d.length + 1 + j) =
        (d ++ ['/']) ++ name.take j := by
      rw [hsplit, List.take_append_eq_append_take]
      congr 1
      · apply List.take_of_length_le
        simp
      · congr 1
        simp
    have hdrop2 : (d ++ '/' :: name).drop (d.length + 1 + j) = name.drop j := by
      rw [hsplit, show d.length + 1 + j = (d ++ ['/']).length + j by simp]
      exact List.drop_append j
    have hdropTake : ((d ++ ['/']) ++ name.take j).drop (d.length + 1) =
        name.take j := by
      rw [show d.length + 1 = (d ++ ['/']).length by simp]
      exact List.drop_left _ _
    rw [htake, hdropTake, hdrop2, List.drop_zero]
    by_cases hc : ((List.take j name).any fun c => c != '.') = true
    · rw [if_pos hc, if_pos hc]
    · rw [if_neg hc, if_neg hc]

/-- C10: `get_output_filenames` discards the input's directory component:
for an input `d/name` (with slash-free `name`) the outputs coincide with
those computed for the bare `name`, and both outputs always sit under the
literal `sample_data/` directory with the `v2_` tag. -/
theorem get_output_filenames_ignores_dir (p : String) (d name : List Char)
    (h1 : p.toList = d ++ '/' :: name) (h2 : '/' ∉ name) :
    get_output_filenames p = get_output_filenames (String.mk name) ∧
    ∃ s g : String,
      get_output_filenames p = ("sample_data/v2_" ++ s, "sample_data/v2_" ++ g) := by
  have hb : basename p.toList = name := by
    rw [h1]
    exact basename_append d name h2
  have hext : (splitext p.toList).2 = (splitext name).2 := by
    rw [h1]
    exact splitext_snd_append d name h2
  have hmk : (String.mk name).toList = name := rfl
  have hbn : basename name = name := basename_no_slash name h2
  have heq : get_output_filenames p = get_output_filenames (String.mk name) := by
    simp only [get_output_filenames, hb, hext, hmk, hbn]
  refine ⟨heq, String.mk (splitext name).1 ++ String.mk (splitext name).2,
    String.mk (splitext name).1 ++ ".gif", ?_⟩
  rw [heq]
  simp only [get_output_filenames, hmk, hbn]
  rw [Prod.mk.injEq]
  exact ⟨String.append_assoc _ _ _, String.append_assoc _ _ _⟩

/-- Witness for C10 at the concrete input `"other_dir/track.mov"`, which
resides outside `sample_data/`. -/
theorem get_output_filenames_ignores_dir_witness :
    ("other_dir/track.mov" : String).toList =
      ("other_dir".toList ++ '/' :: "track.mov".toList) ∧
    '/' ∉ "track.mov".toList ∧
    (get_output_filenames "other_dir/track.mov" =
        get_output_filenames (String.mk "track.mov".toList) ∧
      ∃ s g : String,
        get_output_filenames "other_dir/track.mov" =
          ("sample_data/v2_" ++ s, "sample_data/v2_" ++ g)) :=
  ⟨by decide, by decide,
    get_output_filenames_ignores_dir "other_dir/track.mov" "other_dir".toList
      "track.mov".toList (by decide) (by decide)⟩

end AudioProcessing
